import Mathlib

/-!
Verification of the streaming climate aggregator in src/climate.c.

The embedding models the analyze_file loop, the findStateIndex lookup and
the per-record accumulator updates.  Modelling conventions:

* C floating values (double, long double) are modelled as exact rationals.
* unsigned long counters are modelled as Nat; the increment of num_records
  wraps mod 2^64 as unsigned arithmetic does on LP64.
* An input line is modelled as its list of strtok("\t") tokens, in order;
  each token carries the results of atof and atol on its text, which the
  embedding treats as given data.
* The 50-slot states array of main is modelled as the list of its populated
  prefix (slots are filled left to right and never cleared).
* Undefined behavior (reading past the array, dereferencing a NULL token,
  dereferencing the uninitialized local new_state, an out-of-range
  float-to-unsigned conversion, strcpy overflow of the 3-byte code buffer)
  is modelled as the value none, which poisons the rest of the run.
-/

namespace Climate

/- The Batteries rational arithmetic operations are irreducible by default;
the evaluation theorems below reduce concrete runs of the model, so the
operations are made semireducible for this file. -/
attribute [local semireducible] Rat.add Rat.mul Rat.inv Rat.sub Rat.ofScientific


/-- One tab-separated token of an input line.  The fields q and z record the
results of the C library calls atof and atol on the token text str. -/
structure Token where
  str : String
  q : ℚ
  z : Int
deriving DecidableEq

/-- The numeric fields read from a line by src/climate.c lines 205-261:
timestamp (atol of token 1), humidity (token 3), snow flag (token 4),
cloud cover (token 5), lightning flag (token 6), surface temperature in
Kelvin (token 8).  Tokens 2 (geolocation) and 7 (pressure) are read and
discarded by the source. -/
structure RecFields where
  ts : Int
  humidity : ℚ
  snow : ℚ
  cloud : ℚ
  lightning : ℚ
  tempK : ℚ
deriving DecidableEq

/-- struct climate_info, src/climate.c lines 75-87.  The source creation
code (lines 181-188) never initializes max_temp_date and min_temp_date;
the model sets them to 0, and every statement proved about them goes
through a fold that overwrites them first. -/
structure ClimateInfo where
  code : String
  num_records : Nat
  sum_temperature : ℚ
  sum_humidity : ℚ
  max_temperature : ℚ
  max_temp_date : Int
  min_temperature : ℚ
  min_temp_date : Int
  num_lightning : Nat
  num_snowcover : Nat
  sum_cloudcover : ℚ
deriving DecidableEq

/-- NUM_STATES, src/climate.c line 72. -/
def NUM_STATES : Nat := 50

/-- Kelvin to Fahrenheit conversion, src/climate.c line 263. -/
def kelvinToF (k : ℚ) : ℚ := k * 1.8 - 459.67

/-- Conversion of a long double value to unsigned long, as performed by the
compound assignments at lines 231 and 249: truncation toward zero, with
undefined behavior (none) when the truncated value is not representable. -/
def truncUL (q : ℚ) : Option Nat :=
  if q ≤ -1 ∨ (2 : ℚ) ^ 64 ≤ q then none else some (Int.toNat ⌊q⌋)

/-- A freshly created accumulator, src/climate.c lines 176-188. -/
def createState (code : String) : ClimateInfo where
  code := code
  num_records := 0
  sum_temperature := 0
  sum_humidity := 0
  max_temperature := -1000
  max_temp_date := 0
  min_temperature := 1000
  min_temp_date := 0
  num_lightning := 0
  num_snowcover := 0
  sum_cloudcover := 0

/-- The statement states[state_index]->num_records++ at line 202; the
unsigned long counter wraps mod 2^64. -/
def bumpCount (a : ClimateInfo) : ClimateInfo :=
  { a with num_records := (a.num_records + 1) % 2 ^ 64 }

/-- The token reads of lines 205-261.  A missing token is a NULL pointer;
atol or atof applied to it is undefined behavior, hence none.  The result
is some exactly when the line has at least 9 tokens. -/
def extractFields (line : List Token) : Option RecFields :=
  match line.get? 1, line.get? 3, line.get? 4, line.get? 5,
        line.get? 6, line.get? 8 with
  | some t1, some t3, some t4, some t5, some t6, some t8 =>
      some ⟨t1.z, t3.q, t4.q, t5.q, t6.q, t8.q⟩
  | _, _, _, _, _, _ => none

/-- The per-record accumulator updates of lines 217-281, exactly the writes
the source performs through the local pointer new_state: running sums,
flag counters (with the unsigned conversion of truncUL) and the strict
extremum comparisons, whose stored timestamp is the truncating division
of the millisecond timestamp by 1000 computed at line 208. -/
def foldFields (a : ClimateInfo) (f : RecFields) : Option ClimateInfo :=
  let tsSec : Int := Int.tdiv f.ts 1000
  let tempF : ℚ := kelvinToF f.tempK
  match truncUL ((a.num_snowcover : ℚ) + f.snow),
        truncUL ((a.num_lightning : ℚ) + f.lightning) with
  | some snow1, some light1 =>
      some { a with
        sum_humidity := a.sum_humidity + f.humidity
        num_snowcover := snow1
        sum_cloudcover := a.sum_cloudcover + f.cloud
        num_lightning := light1
        sum_temperature := a.sum_temperature + tempF
        max_temperature := if tempF > a.max_temperature then tempF else a.max_temperature
        max_temp_date := if tempF > a.max_temperature then tsSec else a.max_temp_date
        min_temperature := if tempF < a.min_temperature then tempF else a.min_temperature
        min_temp_date := if tempF < a.min_temperature then tsSec else a.min_temp_date }
  | _, _ => none

/-- The scan loop of findStateIndex, src/climate.c lines 92-107, over the
populated prefix, carrying the running index i.  Reaching the end of the
populated prefix with i = NUM_STATES means the loop reads the slot one
past the 50-element array: undefined behavior, hence none.  Otherwise a
miss returns the negative encoding of the source: -50 for an empty table,
-i for a table of i populated slots. -/
def findAux (code : String) : List ClimateInfo → Nat → Option Int
  | [], i =>
      if i = NUM_STATES then none
      else if i = 0 then some (-50) else some (-(i : Int))
  | a :: rest, i =>
      if a.code = code then some (i : Int) else findAux code rest (i + 1)

/-- findStateIndex, src/climate.c lines 92-107. -/
def findStateIndex (states : List ClimateInfo) (code : String) : Option Int :=
  findAux code states 0

/-- The mutable state of the processing loop: the populated prefix of the
states array of main, and the slot the function-local pointer new_state of
analyze_file currently points at (none while it is still uninitialized). -/
structure EngineState where
  table : List ClimateInfo
  lastCreated : Option Nat
deriving DecidableEq

/-- Lines 174-200 of src/climate.c: when findStateIndex signalled a miss
(negative k), create and insert a fresh accumulator at the first free
slot, whose index the source recovers from the negative encoding, and
redirect new_state at it; strcpy into the 3-byte code buffer overflows
for a token longer than 2 characters (none).  On a hit the table and
new_state are left as they are.  The result carries the table, the
resolved slot index and the slot new_state points at. -/
def resolveState (s : EngineState) (code : String) (k : Int) :
    Option (List ClimateInfo × Nat × Option Nat) :=
  if k < 0 then
    if 2 < code.length then none
    else
      let idx := if k = -50 then 0 else (-k).toNat
      some (s.table ++ [createState code], idx, some idx)
  else some (s.table, k.toNat, s.lastCreated)

/-- Lines 202-281 of src/climate.c: increment num_records of the
accumulator at the resolved index, then apply every remaining update
through the slot new_state points at; a still uninitialized new_state is
dereferenced at line 222, undefined behavior (none). -/
def finishLine (t1 : List ClimateInfo) (idx : Nat) (last : Option Nat)
    (line : List Token) : Option EngineState :=
  let t2 := t1.set idx (bumpCount (t1.getD idx (createState "")))
  match extractFields line with
  | none => none
  | some f =>
    match last with
    | none => none
    | some j =>
      match foldFields (t2.getD j (createState "")) f with
      | none => none
      | some a1 => some ⟨t2.set j a1, some j⟩

/-- One iteration of the while loop of analyze_file, lines 152-282. -/
def processLine (s : EngineState) (line : List Token) : Option EngineState :=
  match line.head? with
  | none => none
  | some tk0 =>
    match findStateIndex s.table tk0.str with
    | none => none
    | some k =>
      match resolveState s tk0.str k with
      | none => none
      | some (t1, idx, last) => finishLine t1 idx last line

/-- The while loop of analyze_file over the lines of one stream. -/
def processLines : EngineState → List (List Token) → Option EngineState
  | s, [] => some s
  | s, l :: ls =>
      match processLine s l with
      | none => none
      | some s1 => processLines s1 ls

/-- analyze_file, lines 145-283: the local pointer new_state starts out
uninitialized on every call. -/
def analyzeFile (table : List ClimateInfo) (lines : List (List Token)) :
    Option (List ClimateInfo) :=
  (processLines ⟨table, none⟩ lines).map EngineState.table

/-- The loop of main over the opened input files, lines 122-136, threading
the shared states array through successive analyze_file calls. -/
def runFiles : List ClimateInfo → List (List (List Token)) → Option (List ClimateInfo)
  | t, [] => some t
  | t, f :: fs =>
      match analyzeFile t f with
      | none => none
      | some t1 => runFiles t1 fs

/-- A whole run of the program on a list of opened files, starting from the
all-NULL states array. -/
def run (files : List (List (List Token))) : Option (List ClimateInfo) :=
  runFiles [] files

/-- Folding a list of records into a single accumulator through the
per-record updates of lines 217-281. -/
def foldRecords : ClimateInfo → List RecFields → Option ClimateInfo
  | a, [] => some a
  | a, r :: rs =>
      match foldFields a r with
      | none => none
      | some a1 => foldRecords a1 rs

/-- The view of an accumulator that claims about extrema read off. -/
def extremaView (a : ClimateInfo) : ℚ × ℚ × Int × Int × Nat :=
  (a.max_temperature, a.min_temperature, a.max_temp_date, a.min_temp_date,
    a.num_records)

/-- The invariant of claim C3 over a table: every populated accumulator has
its minimum at or below its maximum. -/
def InvTable (t : List ClimateInfo) : Prop :=
  ∀ a ∈ t, a.min_temperature ≤ a.max_temperature

/-- Per-line precondition of claim C3: if the line has a temperature token,
the converted Fahrenheit temperature lies strictly between the two
initialization sentinels -1000 and 1000. -/
def lineTempOK (l : List Token) : Bool :=
  match l.get? 8 with
  | some tk => decide (-1000 < kelvinToF tk.q ∧ kelvinToF tk.q < 1000)
  | none => true

/-- Every line of every file satisfies lineTempOK. -/
def tempOK (files : List (List (List Token))) : Prop :=
  ∀ file ∈ files, ∀ l ∈ file, lineTempOK l = true

instance tempOK_decidable (files : List (List (List Token))) :
    Decidable (tempOK files) := by
  unfold tempOK
  infer_instance

/-! Concrete inputs used by the evaluation theorems and witnesses. -/

/-- A token that only carries a numeric atof value. -/
def numTok (q : ℚ) : Token := ⟨"n", q, 0⟩

/-- A well-formed 9-field line: state code, timestamp (milliseconds),
geolocation, humidity, snow flag, cloud cover, lightning flag, pressure,
surface temperature in Kelvin. -/
def mkLine (code : String) (ts : Int) (hum snow cloud light kelvin : ℚ) :
    List Token :=
  [⟨code, 0, 0⟩, ⟨"ts", 0, ts⟩, ⟨"geo", 0, 0⟩, numTok hum, numTok snow,
   numTok cloud, numTok light, numTok 0, numTok kelvin]

/-- CA record: t = 1000 ms, humidity 10, snow 0, cloud 5, lightning 0,
280 K = 44.33 F. -/
def lineCA1 : List Token := mkLine "CA" 1000 10 0 5 0 280

/-- TN record: t = 2000 ms, humidity 20, snow 0, cloud 7, lightning 0,
290 K = 62.33 F. -/
def lineTN : List Token := mkLine "TN" 2000 20 0 7 0 290

/-- Second CA record: t = 3000 ms, humidity 40, snow 1, cloud 9,
lightning 0, 300 K = 80.33 F. -/
def lineCA2 : List Token := mkLine "CA" 3000 40 1 9 0 300


/-- A malformed line with only 5 tab-separated fields. -/
def shortLine : List Token :=
  [⟨"TX", 0, 0⟩, ⟨"ts", 0, 5000⟩, ⟨"geo", 0, 0⟩, numTok 50, numTok 0]

/-- n well-formed one-record lines with n distinct state codes. -/
def capLines (n : Nat) : List (List Token) :=
  (List.range n).map (fun m => mkLine (toString m) 0 0 0 0 0 280)

/-- A table holding NUM_STATES accumulators with pairwise distinct codes. -/
def fullTable : List ClimateInfo :=
  (List.range NUM_STATES).map (fun m => createState (toString m))

/-- Record fields of a single 280 K observation, all flags zero. -/
def wRec4 : RecFields := ⟨0, 0, 0, 0, 0, 280⟩

/-- The accumulator obtained by folding wRec4 into a fresh CA accumulator. -/
def wAcc4 : ClimateInfo := ⟨"CA", 0, 4433/100, 0, 4433/100, 0, 4433/100, 0, 0, 0, 0⟩

/-- Record fields of a 280 K observation at t = 1000 ms. -/
def wRec5 : RecFields := ⟨1000, 0, 0, 0, 0, 280⟩

/-- The accumulator obtained by folding wRec5 into a fresh CA accumulator. -/
def wAcc5 : ClimateInfo := ⟨"CA", 0, 4433/100, 0, 4433/100, 1, 4433/100, 1, 0, 0, 0⟩

/-- First of two records with equal temperature, t = 1000 ms. -/
def wRec6a : RecFields := ⟨1000, 0, 0, 0, 0, 280⟩

/-- Second of two records with equal temperature, t = 9000 ms. -/
def wRec6b : RecFields := ⟨9000, 0, 0, 0, 0, 280⟩

/-- The WA accumulator after folding wRec6a. -/
def wAcc6a : ClimateInfo := ⟨"WA", 0, 4433/100, 0, 4433/100, 1, 4433/100, 1, 0, 0, 0⟩

/-- The WA accumulator after also folding wRec6b: the extrema and their
timestamps are untouched by the tie. -/
def wAcc6b : ClimateInfo := ⟨"WA", 0, 4433/50, 0, 4433/100, 1, 4433/100, 1, 0, 0, 0⟩

/-- A record whose snow flag field holds the non-integer value 0.5. -/
def rHalf : RecFields := ⟨0, 0, 1/2, 0, 0, 280⟩

/-- The accumulator after folding rHalf into a fresh CA accumulator: the
0.5 snow flag was truncated away. -/
def cAcc9 : ClimateInfo := ⟨"CA", 0, 4433/100, 0, 4433/100, 0, 4433/100, 0, 0, 0, 0⟩

/-- A record with snow flag exactly 1 and lightning flag exactly 0. -/
def wRec9 : RecFields := ⟨0, 0, 1, 0, 0, 280⟩

/-- The accumulator after folding wRec9 into a fresh TN accumulator. -/
def wAcc9 : ClimateInfo := ⟨"TN", 0, 4433/100, 0, 4433/100, 0, 4433/100, 0, 0, 1, 0⟩

/-- The CA accumulator created and folded from lineCA1. -/
def wAcc10 : ClimateInfo := ⟨"CA", 1, 4433/100, 10, 4433/100, 1, 4433/100, 1, 0, 0, 5⟩

/-- The CA accumulator of the one-record run used as the C3 witness. -/
def wAcc3 : ClimateInfo := ⟨"CA", 1, 4433/100, 10, 4433/100, 1, 4433/100, 1, 0, 0, 5⟩

lemma truncUL_some {q : ℚ} {n : Nat} (h : truncUL q = some n) :
    n = Int.toNat ⌊q⌋ := by
  by_cases hc : q ≤ -1 ∨ (2 : ℚ) ^ 64 ≤ q
  · simp [truncUL, hc] at h
  · simp [truncUL, hc] at h
    exact h.symm

lemma foldFields_some {a : ClimateInfo} {f : RecFields} {a1 : ClimateInfo}
    (h : foldFields a f = some a1) :
    a1 = { a with
      sum_humidity := a.sum_humidity + f.humidity
      num_snowcover := Int.toNat ⌊(a.num_snowcover : ℚ) + f.snow⌋
      sum_cloudcover := a.sum_cloudcover + f.cloud
      num_lightning := Int.toNat ⌊(a.num_lightning : ℚ) + f.lightning⌋
      sum_temperature := a.sum_temperature + kelvinToF f.tempK
      max_temperature :=
        if kelvinToF f.tempK > a.max_temperature then kelvinToF f.tempK
        else a.max_temperature
      max_temp_date :=
        if kelvinToF f.tempK > a.max_temperature then Int.tdiv f.ts 1000
        else a.max_temp_date
      min_temperature :=
        if kelvinToF f.tempK < a.min_temperature then kelvinToF f.tempK
        else a.min_temperature
      min_temp_date :=
        if kelvinToF f.tempK < a.min_temperature then Int.tdiv f.ts 1000
        else a.min_temp_date } := by
  unfold foldFields at h
  cases hs : truncUL ((a.num_snowcover : ℚ) + f.snow) with
  | none => rw [hs] at h; exact absurd h (by simp)
  | some sn =>
    cases hl : truncUL ((a.num_lightning : ℚ) + f.lightning) with
    | none => rw [hs, hl] at h; exact absurd h (by simp)
    | some ln =>
      rw [hs, hl] at h
      simp only [Option.some_inj] at h
      rw [← h, truncUL_some hs, truncUL_some hl]

lemma foldFields_minmax {a a1 : ClimateInfo} {f : RecFields}
    (hmm : a.min_temperature ≤ a.max_temperature)
    (h : foldFields a f = some a1) :
    a1.min_temperature ≤ a1.max_temperature := by
  rw [foldFields_some h]
  dsimp only
  split_ifs <;> linarith

lemma foldFields_fresh {a a1 : ClimateInfo} {f : RecFields}
    (hlo : a.max_temperature < kelvinToF f.tempK)
    (hhi : kelvinToF f.tempK < a.min_temperature)
    (h : foldFields a f = some a1) :
    a1.max_temperature = kelvinToF f.tempK ∧
    a1.min_temperature = kelvinToF f.tempK ∧
    a1.max_temp_date = Int.tdiv f.ts 1000 ∧
    a1.min_temp_date = Int.tdiv f.ts 1000 := by
  rw [foldFields_some h]
  dsimp only
  rw [if_pos hlo, if_pos hhi, if_pos hlo, if_pos hhi]
  exact ⟨rfl, rfl, rfl, rfl⟩

lemma foldFields_le_max {a a1 : ClimateInfo} {f : RecFields}
    (h : foldFields a f = some a1) :
    kelvinToF f.tempK ≤ a1.max_temperature ∧
    a1.min_temperature ≤ kelvinToF f.tempK := by
  rw [foldFields_some h]
  dsimp only
  constructor
  · split_ifs with h1
    · exact le_refl _
    · exact le_of_not_lt h1
  · split_ifs with h1
    · exact le_refl _
    · exact le_of_not_lt h1

lemma foldFields_keeps {a a1 : ClimateInfo} {f : RecFields}
    (h : foldFields a f = some a1) :
    a1.code = a.code ∧ a1.num_records = a.num_records := by
  rw [foldFields_some h]
  exact ⟨rfl, rfl⟩

lemma findAux_neg {code : String} :
    ∀ (t : List ClimateInfo) (i : Nat) (k : Int),
      findAux code t i = some k → k < 0 →
      (∀ a ∈ t, a.code ≠ code) ∧
        (if k = -50 then 0 else (-k).toNat) = i + t.length
  | [], i, k, h, hk => by
      unfold findAux at h
      by_cases h50 : i = NUM_STATES
      · rw [if_pos h50] at h
        exact absurd h (by simp)
      · rw [if_neg h50] at h
        by_cases h0 : i = 0
        · rw [if_pos h0] at h
          simp only [Option.some_inj] at h
          refine ⟨fun a ha => absurd ha (List.not_mem_nil a), ?_⟩
          rw [← h, if_pos rfl, h0]
          rfl
        · rw [if_neg h0] at h
          simp only [Option.some_inj] at h
          have hne : k ≠ -50 := by
            rw [← h]
            intro hcon
            have : i = 50 := by omega
            exact h50 (by rw [this]; rfl)
          refine ⟨fun a ha => absurd ha (List.not_mem_nil a), ?_⟩
          rw [if_neg hne, ← h]
          simp only [neg_neg, Int.toNat_natCast, List.length_nil]
          omega
  | a :: rest, i, k, h, hk => by
      unfold findAux at h
      by_cases hcode : a.code = code
      · rw [if_pos hcode] at h
        simp only [Option.some_inj] at h
        omega
      · rw [if_neg hcode] at h
        obtain ⟨hall, hidx⟩ := findAux_neg rest (i + 1) k h hk
        refine ⟨?_, ?_⟩
        · intro b hb
          rcases List.mem_cons.mp hb with hb | hb
          · rw [hb]; exact hcode
          · exact hall b hb
        · rw [hidx]
          simp only [List.length_cons]
          omega

lemma findAux_found {code : String} :
    ∀ (t : List ClimateInfo) (i : Nat) (k : Int),
      findAux code t i = some k → 0 ≤ k →
      ∃ j : Nat, ∃ hj : j < t.length, k = ((i + j : Nat) : Int) ∧
        (t.get ⟨j, hj⟩).code = code
  | [], i, k, h, hk => by
      unfold findAux at h
      by_cases h50 : i = NUM_STATES
      · rw [if_pos h50] at h
        exact absurd h (by simp)
      · rw [if_neg h50] at h
        by_cases h0 : i = 0
        · rw [if_pos h0] at h
          simp only [Option.some_inj] at h
          omega
        · rw [if_neg h0] at h
          simp only [Option.some_inj] at h
          omega
  | a :: rest, i, k, h, hk => by
      unfold findAux at h
      by_cases hcode : a.code = code
      · rw [if_pos hcode] at h
        simp only [Option.some_inj] at h
        exact ⟨0, by simp, by omega, hcode⟩
      · rw [if_neg hcode] at h
        obtain ⟨j, hj, hk2, hc⟩ := findAux_found rest (i + 1) k h hk
        refine ⟨j + 1, by simp only [List.length_cons]; omega, by omega, ?_⟩
        simpa using hc

lemma findAux_isSome {code : String} :
    ∀ (t : List ClimateInfo) (i : Nat), i + t.length < NUM_STATES →
      (findAux code t i).isSome
  | [], i, hlen => by
      unfold findAux
      have h50 : ¬ i = NUM_STATES := by
        simp only [List.length_nil] at hlen
        omega
      rw [if_neg h50]
      by_cases h0 : i = 0
      · rw [if_pos h0]; rfl
      · rw [if_neg h0]; rfl
  | a :: rest, i, hlen => by
      unfold findAux
      by_cases hcode : a.code = code
      · rw [if_pos hcode]; rfl
      · rw [if_neg hcode]
        refine findAux_isSome rest (i + 1) ?_
        simp only [List.length_cons] at hlen
        omega

lemma findAux_full {code : String} :
    ∀ (t : List ClimateInfo) (i : Nat), (∀ a ∈ t, a.code ≠ code) →
      i + t.length = NUM_STATES → findAux code t i = none
  | [], i, _, hlen => by
      unfold findAux
      rw [if_pos (by simpa using hlen)]
  | a :: rest, i, hall, hlen => by
      unfold findAux
      rw [if_neg (hall a (List.mem_cons_self a rest))]
      refine findAux_full rest (i + 1) (fun b hb => hall b (List.mem_cons_of_mem a hb)) ?_
      simp only [List.length_cons] at hlen
      omega

lemma findStateIndex_neg {t : List ClimateInfo} {code : String} {k : Int}
    (h : findStateIndex t code = some k) (hk : k < 0) :
    (∀ a ∈ t, a.code ≠ code) ∧
      (if k = -50 then 0 else (-k).toNat) = t.length := by
  have := findAux_neg t 0 k h hk
  simpa using this

lemma findStateIndex_found {t : List ClimateInfo} {code : String} {k : Int}
    (h : findStateIndex t code = some k) (hk : 0 ≤ k) :
    ∃ hj : k.toNat < t.length, (t.get ⟨k.toNat, hj⟩).code = code := by
  obtain ⟨j, hj, hkj, hc⟩ := findAux_found t 0 k h hk
  have : k.toNat = j := by omega
  subst this
  exact ⟨hj, hc⟩

lemma extractFields_some {line : List Token} {f : RecFields}
    (h : extractFields line = some f) :
    ∃ u1 u3 u4 u5 u6 u8,
      line.get? 1 = some u1 ∧ line.get? 3 = some u3 ∧
      line.get? 4 = some u4 ∧ line.get? 5 = some u5 ∧
      line.get? 6 = some u6 ∧ line.get? 8 = some u8 ∧
      f = ⟨u1.z, u3.q, u4.q, u5.q, u6.q, u8.q⟩ := by
  unfold extractFields at h
  split at h
  · next u1 u3 u4 u5 u6 u8 e1 e3 e4 e5 e6 e8 =>
      simp only [Option.some_inj] at h
      exact ⟨u1, u3, u4, u5, u6, u8, e1, e3, e4, e5, e6, e8, h.symm⟩
  · exact absurd h (by simp)

lemma set_concat {α : Type} (l : List α) (x y : α) :
    (l ++ [x]).set l.length y = l ++ [y] := by
  rw [List.set_append_right l.length y (le_refl _)]
  simp

lemma getD_concat {α : Type} (l : List α) (x d : α) :
    (l ++ [x]).getD l.length d = x := by
  rw [List.getD_eq_getElem?_getD, List.getElem?_concat_length]
  rfl

lemma finishLine_some {t1 : List ClimateInfo} {idx : Nat} {last : Option Nat}
    {line : List Token} {s1 : EngineState}
    (h : finishLine t1 idx last line = some s1) :
    ∃ f j a1, extractFields line = some f ∧ last = some j ∧
      foldFields ((t1.set idx (bumpCount (t1.getD idx (createState "")))).getD j
        (createState "")) f = some a1 ∧
      s1 = ⟨(t1.set idx (bumpCount (t1.getD idx (createState "")))).set j a1,
        some j⟩ := by
  unfold finishLine at h
  cases he : extractFields line with
  | none => simp only [he] at h; exact absurd h (fun hc => Option.noConfusion hc)
  | some f =>
    cases hl : last with
    | none => simp only [he, hl] at h; exact absurd h (fun hc => Option.noConfusion hc)
    | some j =>
      cases hf : foldFields ((t1.set idx (bumpCount (t1.getD idx
          (createState "")))).getD j (createState "")) f with
      | none =>
          simp only [he, hl, hf] at h
          exact absurd h (fun hc => Option.noConfusion hc)
      | some a1 =>
          simp only [he, hl, hf, Option.some_inj] at h
          exact ⟨f, j, a1, rfl, rfl, hf, h.symm⟩

/-- Every successful loop iteration is either a creation (the code was not
in the table: a fresh accumulator is appended, counted and folded, and the
whole record goes into it) or a revisit (the code is at some populated
index idx: that accumulator gets the count, while the remaining updates go
to whatever slot the local pointer new_state currently designates). -/
lemma processLine_cases {s : EngineState} {line : List Token} {s1 : EngineState}
    (h : processLine s line = some s1) :
    ∃ tk0 f, line.head? = some tk0 ∧ extractFields line = some f ∧
      ((∃ a1, (∀ a ∈ s.table, a.code ≠ tk0.str) ∧
          foldFields (bumpCount (createState tk0.str)) f = some a1 ∧
          s1 = ⟨s.table ++ [a1], some s.table.length⟩) ∨
       (∃ idx, ∃ hidx : idx < s.table.length, ∃ j a1,
          s.lastCreated = some j ∧ (s.table.get ⟨idx, hidx⟩).code = tk0.str ∧
          foldFields ((s.table.set idx
              (bumpCount (s.table.get ⟨idx, hidx⟩))).getD j (createState "")) f
            = some a1 ∧
          s1 = ⟨(s.table.set idx
              (bumpCount (s.table.get ⟨idx, hidx⟩))).set j a1, some j⟩)) := by
  unfold processLine at h
  cases hh : line.head? with
  | none => simp only [hh] at h; exact absurd h (fun hc => Option.noConfusion hc)
  | some tk0 =>
    cases hfind : findStateIndex s.table tk0.str with
    | none =>
        simp only [hh, hfind] at h
        exact absurd h (fun hc => Option.noConfusion hc)
    | some k =>
      simp only [hh, hfind] at h
      by_cases hk : k < 0
      · -- creation
        obtain ⟨hnotin, hidx⟩ := findStateIndex_neg hfind hk
        unfold resolveState at h
        rw [if_pos hk] at h
        by_cases hlen : 2 < tk0.str.length
        · rw [if_pos hlen] at h
          simp only at h
          exact absurd h (fun hc => Option.noConfusion hc)
        · rw [if_neg hlen] at h
          simp only at h
          rw [hidx] at h
          obtain ⟨f, j, a1, he, hj, hf, hs1⟩ := finishLine_some h
          simp only [Option.some_inj] at hj
          subst hj
          rw [getD_concat, set_concat, getD_concat] at hf
          rw [getD_concat, set_concat, set_concat] at hs1
          exact ⟨tk0, f, rfl, he, Or.inl ⟨a1, hnotin, hf, hs1⟩⟩
      · -- revisit
        push_neg at hk
        obtain ⟨hlt, hcode⟩ := findStateIndex_found hfind hk
        unfold resolveState at h
        rw [if_neg (not_lt.mpr hk)] at h
        simp only at h
        obtain ⟨f, j, a1, he, hj, hf, hs1⟩ := finishLine_some h
        have hgd : s.table.getD k.toNat (createState "") =
            s.table.get ⟨k.toNat, hlt⟩ := by
          rw [List.getD_eq_getElem s.table (createState "") hlt]
          simp [List.get_eq_getElem]
        rw [hgd] at hf hs1
        exact ⟨tk0, f, rfl, he, Or.inr ⟨k.toNat, hlt, j, a1, hj, hcode, hf, hs1⟩⟩

lemma getD_of_le {α : Type} (l : List α) (d : α) {n : Nat}
    (h : l.length ≤ n) : l.getD n d = d := by
  rw [List.getD_eq_getElem?_getD, List.getElem?_eq_none h]
  rfl

lemma lineTempOK_range {l : List Token} {tk : Token}
    (h : l.get? 8 = some tk) (hok : lineTempOK l = true) :
    -1000 < kelvinToF tk.q ∧ kelvinToF tk.q < 1000 := by
  unfold lineTempOK at hok
  rw [h] at hok
  exact of_decide_eq_true hok

lemma processLine_inv {s : EngineState} {line : List Token} {s1 : EngineState}
    (hInv : InvTable s.table) (hok : lineTempOK line = true)
    (h : processLine s line = some s1) : InvTable s1.table := by
  obtain ⟨tk0, f, hhead, hext, hcase⟩ := processLine_cases h
  obtain ⟨u1, u3, u4, u5, u6, u8, e1, e3, e4, e5, e6, e8, ef⟩ :=
    extractFields_some hext
  have hrange := lineTempOK_range e8 hok
  have hfk : f.tempK = u8.q := by rw [ef]
  rw [← hfk] at hrange
  rcases hcase with ⟨a1, hnotin, hfold, hs1⟩ |
    ⟨idx, hidx, j, a1, hlast, hcode, hfold, hs1⟩
  · -- creation: the fresh accumulator is folded at once
    have h1 : a1.min_temperature ≤ a1.max_temperature := by
      have hfr := foldFields_fresh (a := bumpCount (createState tk0.str))
        (by simpa [bumpCount, createState] using hrange.1)
        (by simpa [bumpCount, createState] using hrange.2) hfold
      rw [hfr.1, hfr.2.1]
    rw [hs1]
    intro a ha
    rcases List.mem_append.mp ha with ha | ha
    · exact hInv a ha
    · rw [List.mem_singleton.mp ha]
      exact h1
  · -- revisit: the count goes to slot idx, the fold to slot j
    have hsetInv :
        InvTable (s.table.set idx (bumpCount (s.table.get ⟨idx, hidx⟩))) := by
      intro a ha
      rcases List.mem_or_eq_of_mem_set ha with ha | ha
      · exact hInv a ha
      · rw [ha]
        exact hInv (s.table.get ⟨idx, hidx⟩) (List.get_mem s.table idx hidx)
    have h1 : a1.min_temperature ≤ a1.max_temperature := by
      by_cases hj :
          j < (s.table.set idx (bumpCount (s.table.get ⟨idx, hidx⟩))).length
      · refine foldFields_minmax ?_ hfold
        rw [List.getD_eq_getElem _ (createState "") hj] at hfold ⊢
        exact hsetInv _ (List.getElem_mem hj)
      · rw [getD_of_le _ _ (le_of_not_lt hj)] at hfold
        have hfr := foldFields_fresh (a := createState "")
          (by simpa [createState] using hrange.1)
          (by simpa [createState] using hrange.2) hfold
        rw [hfr.1, hfr.2.1]
    rw [hs1]
    intro a ha
    rcases List.mem_or_eq_of_mem_set ha with ha | ha
    · exact hsetInv a ha
    · rw [ha]
      exact h1

lemma processLines_inv :
    ∀ {lines : List (List Token)} {s s1 : EngineState},
      InvTable s.table → (∀ l ∈ lines, lineTempOK l = true) →
      processLines s lines = some s1 → InvTable s1.table := by
  intro lines
  induction lines with
  | nil =>
      intro s s1 hInv _ h
      unfold processLines at h
      simp only [Option.some_inj] at h
      rw [← h]
      exact hInv
  | cons l ls ih =>
      intro s s1 hInv hok h
      unfold processLines at h
      cases hp : processLine s l with
      | none => rw [hp] at h; exact absurd h (fun hc => Option.noConfusion hc)
      | some s2 =>
          rw [hp] at h
          exact ih (processLine_inv hInv (hok l (List.mem_cons_self l ls)) hp)
            (fun m hm => hok m (List.mem_cons_of_mem l hm)) h

lemma analyzeFile_inv {table : List ClimateInfo} {lines : List (List Token)}
    {t1 : List ClimateInfo} (hInv : InvTable table)
    (hok : ∀ l ∈ lines, lineTempOK l = true)
    (h : analyzeFile table lines = some t1) : InvTable t1 := by
  unfold analyzeFile at h
  cases hp : processLines ⟨table, none⟩ lines with
  | none => rw [hp] at h; exact absurd h (fun hc => Option.noConfusion hc)
  | some s1 =>
      rw [hp] at h
      simp only [Option.map_some', Option.some_inj] at h
      rw [← h]
      exact processLines_inv hInv hok hp

lemma runFiles_inv :
    ∀ {files : List (List (List Token))} {t t1 : List ClimateInfo},
      InvTable t → (∀ file ∈ files, ∀ l ∈ file, lineTempOK l = true) →
      runFiles t files = some t1 → InvTable t1 := by
  intro files
  induction files with
  | nil =>
      intro t t1 hInv _ h
      unfold runFiles at h
      simp only [Option.some_inj] at h
      rw [← h]
      exact hInv
  | cons f fs ih =>
      intro t t1 hInv hok h
      unfold runFiles at h
      cases ha : analyzeFile t f with
      | none => rw [ha] at h; exact absurd h (fun hc => Option.noConfusion hc)
      | some t2 =>
          rw [ha] at h
          exact ih (analyzeFile_inv hInv (hok f (List.mem_cons_self f fs)) ha)
            (fun m hm => hok m (List.mem_cons_of_mem f hm)) h

/-!
Claim theorems.
-/

/-- C1: the claim says every successfully parsed record adds its humidity,
cloud cover and Fahrenheit temperature to the accumulator of its own state
code and never to that of any other state.  The code violates this: all
updates other than num_records go through the local pointer new_state,
which designates the most recently created accumulator.  In this run the
third record (state CA, humidity 40, snow flag 1, cloud 9, 80.33 F at
t = 3 s) bumps the CA record count, while its humidity, snow flag, cloud
cover, temperature and extrema all land in the TN accumulator. -/
theorem c1_updates_go_to_last_created :
    run [[lineCA1, lineTN, lineCA2]] =
      some [⟨"CA", 2, 4433/100, 10, 4433/100, 1, 4433/100, 1, 0, 0, 5⟩,
            ⟨"TN", 1, 7133/50, 60, 8033/100, 3, 6233/100, 2, 0, 1, 16⟩] := by
  decide

/-- C2: the claim says a line with fewer than 9 tab-separated fields is
skipped, leaves every accumulator unchanged and lets processing continue
with the next line.  The code never checks the field count: on the 5-field
line it calls atof on a NULL token, which is undefined behavior (the model
poisons the run to none), and the following well-formed line is never
reached. -/
theorem c2_short_line_aborts_run :
    processLines ⟨[], none⟩ [shortLine, mkLine "WA" 1000 50 0 0 0 280] =
      none := by
  decide

/-- C3: in every defined run whose folded temperatures lie strictly
between the initialization sentinels -1000 and 1000, every accumulator of
the final table with at least one counted record has its maximum
temperature at or above its minimum temperature. -/
theorem c3_min_le_max (files : List (List (List Token)))
    (tbl : List ClimateInfo) (hrun : run files = some tbl)
    (hT : tempOK files) (a : ClimateInfo) (ha : a ∈ tbl)
    (_hcount : 1 ≤ a.num_records) :
    a.min_temperature ≤ a.max_temperature := by
  have hInv : InvTable tbl :=
    runFiles_inv (fun a ha => absurd ha (List.not_mem_nil a)) hT hrun
  exact hInv a ha

/-- Witness for C3 at a concrete one-record run. -/
theorem c3_min_le_max_witness :
    wAcc3.min_temperature ≤ wAcc3.max_temperature :=
  c3_min_le_max [[lineCA1]] [wAcc3] (by decide) (by decide) wAcc3
    (by decide) (by decide)

/-- C4: the temperature of every record is converted by the single formula
fahrenheit = kelvin * 1.8 - 459.67; the conversion maps 373.15 Kelvin to
exactly 212 Fahrenheit, the converted value is what enters the running
temperature sum, and the extrema only ever hold previous values or the
converted value (no alternate unit path). -/
theorem c4_kelvin_conversion :
    kelvinToF (373.15 : ℚ) = 212 ∧
    ∀ (a : ClimateInfo) (f : RecFields) (a1 : ClimateInfo),
      foldFields a f = some a1 →
      a1.sum_temperature = a.sum_temperature + kelvinToF f.tempK ∧
      (a1.max_temperature = a.max_temperature ∨
        a1.max_temperature = kelvinToF f.tempK) ∧
      (a1.min_temperature = a.min_temperature ∨
        a1.min_temperature = kelvinToF f.tempK) := by
  constructor
  · decide
  · intro a f a1 h
    rw [foldFields_some h]
    refine ⟨rfl, ?_, ?_⟩
    · dsimp only
      split_ifs with h1
      · exact Or.inr rfl
      · exact Or.inl rfl
    · dsimp only
      split_ifs with h1
      · exact Or.inr rfl
      · exact Or.inl rfl

/-- Witness for C4 at a concrete fold. -/
theorem c4_kelvin_conversion_witness :
    wAcc4.sum_temperature =
      (createState "CA").sum_temperature + kelvinToF wRec4.tempK :=
  (c4_kelvin_conversion.2 (createState "CA") wRec4 wAcc4 (by decide)).1

/-- C5: whenever a fold stores an extremum timestamp, the stored value is
the truncating integer division of the record timestamp in milliseconds
by 1000, and for nonnegative timestamps that truncating division agrees
with the flooring division. -/
theorem c5_extremum_timestamp (a : ClimateInfo) (f : RecFields)
    (a1 : ClimateInfo) (h : foldFields a f = some a1) :
    (a.max_temperature < kelvinToF f.tempK →
      a1.max_temp_date = Int.tdiv f.ts 1000) ∧
    (kelvinToF f.tempK < a.min_temperature →
      a1.min_temp_date = Int.tdiv f.ts 1000) ∧
    (a1.max_temp_date = a.max_temp_date ∨
      a1.max_temp_date = Int.tdiv f.ts 1000) ∧
    (a1.min_temp_date = a.min_temp_date ∨
      a1.min_temp_date = Int.tdiv f.ts 1000) ∧
    (0 ≤ f.ts → Int.tdiv f.ts 1000 = Int.fdiv f.ts 1000) := by
  refine ⟨?_, ?_, ?_, ?_, fun hts => (Int.fdiv_eq_tdiv hts (by norm_num)).symm⟩
  · intro hgt
    rw [foldFields_some h]
    dsimp only
    rw [if_pos hgt]
  · intro hlt
    rw [foldFields_some h]
    dsimp only
    rw [if_pos hlt]
  · rw [foldFields_some h]
    dsimp only
    split_ifs with h1
    · exact Or.inr rfl
    · exact Or.inl rfl
  · rw [foldFields_some h]
    dsimp only
    split_ifs with h1
    · exact Or.inr rfl
    · exact Or.inl rfl

/-- Witness for C5 at a concrete fold that stores a new maximum. -/
theorem c5_extremum_timestamp_witness :
    wAcc5.max_temp_date = Int.tdiv wRec5.ts 1000 :=
  (c5_extremum_timestamp (createState "CA") wRec5 wAcc5 (by decide)).1
    (by decide)

/-- C6: folding a second record with the same Fahrenheit temperature as an
already folded one into the same accumulator moves neither extremum nor
either stored timestamp; both comparisons are strict, so the first record
achieving an extreme value keeps its timestamp. -/
theorem c6_tie_preserves_extremum (a : ClimateInfo) (r1 r2 : RecFields)
    (a1 a2 : ClimateInfo) (h1 : foldFields a r1 = some a1)
    (h2 : foldFields a1 r2 = some a2)
    (heq : kelvinToF r2.tempK = kelvinToF r1.tempK) :
    a2.max_temperature = a1.max_temperature ∧
    a2.max_temp_date = a1.max_temp_date ∧
    a2.min_temperature = a1.min_temperature ∧
    a2.min_temp_date = a1.min_temp_date := by
  obtain ⟨hle, hge⟩ := foldFields_le_max h1
  rw [foldFields_some h2]
  dsimp only
  rw [heq]
  rw [if_neg (not_lt.mpr hle), if_neg (not_lt.mpr hle),
    if_neg (not_lt.mpr hge), if_neg (not_lt.mpr hge)]
  exact ⟨rfl, rfl, rfl, rfl⟩

/-- Witness for C6 at two concrete equal-temperature records. -/
theorem c6_tie_preserves_extremum_witness :
    wAcc6b.max_temperature = wAcc6a.max_temperature ∧
    wAcc6b.max_temp_date = wAcc6a.max_temp_date ∧
    wAcc6b.min_temperature = wAcc6a.min_temperature ∧
    wAcc6b.min_temp_date = wAcc6a.min_temp_date :=
  c6_tie_preserves_extremum (createState "WA") wRec6a wRec6b wAcc6a wAcc6b
    (by decide) (by decide) (by decide)

/-- C7: the claim says splitting one input file at a line boundary and
processing the two parts in order against the shared table yields the same
final accumulators.  The code violates this: the pointer new_state is a
local of analyze_file and starts uninitialized on every call, so when the
second file opens with a record of an already-known state, line 222
dereferences an uninitialized pointer (undefined behavior, modelled as
none), while the unsplit run is defined. -/
theorem c7_split_run_differs :
    run [[lineCA1, lineCA2]] =
      some [⟨"CA", 2, 6233/50, 50, 8033/100, 3, 4433/100, 1, 0, 1, 14⟩] ∧
    run [[lineCA1], [lineCA2]] = none := by
  decide

/-- C8 counterexample: the claim says the table supports an unbounded
number of distinct state codes.  It does not: a run over 50 one-record
lines with distinct codes succeeds, but the run over 51 such lines dies
when findStateIndex scans past the end of the 50-slot array (undefined
behavior, modelled as none). -/
theorem c8_counterexample_capacity :
    (run [capLines NUM_STATES]).isSome = true ∧
    run [capLines (NUM_STATES + 1)] = none := by
  decide

/-- C8 as amended: the table is capped at NUM_STATES = 50 distinct codes.
While fewer than 50 entries are populated the find-or-create scan always
returns a result, any hit index it returns lies inside the populated
prefix, and with exactly 50 populated entries a lookup of an unknown code
runs past the populated entries (undefined behavior, modelled as none). -/
theorem c8_capacity_bounded :
    (∀ (t : List ClimateInfo) (code : String), t.length < NUM_STATES →
      (findStateIndex t code).isSome) ∧
    (∀ (t : List ClimateInfo) (code : String) (k : Int),
      findStateIndex t code = some k → 0 ≤ k → k.toNat < t.length) ∧
    (∀ (t : List ClimateInfo) (code : String),
      (∀ a ∈ t, a.code ≠ code) → t.length = NUM_STATES →
      findStateIndex t code = none) := by
  refine ⟨?_, ?_, ?_⟩
  · intro t code h
    exact findAux_isSome t 0 (by simpa using h)
  · intro t code k h hk
    obtain ⟨hlt, _⟩ := findStateIndex_found h hk
    exact hlt
  · intro t code hall hlen
    exact findAux_full t 0 hall (by simpa using hlen)

/-- Witness for C8 as amended, on a concrete full table. -/
theorem c8_capacity_bounded_witness :
    findStateIndex fullTable "ZZ" = none :=
  c8_capacity_bounded.2.2 fullTable "ZZ" (by decide) (by decide)

/-- C9 counterexample: the claim says the final snow cover count equals
the sum of the raw snow flag values of the folded records.  The compound
assignment converts the long double sum back to unsigned long after every
record, truncating toward zero, so a single record with snow flag 0.5
leaves the counter at 0 while the raw sum is 0.5. -/
theorem c9_counterexample_fractional_flag :
    foldRecords (createState "CA") [rHalf] = some cAcc9 ∧
    ¬ ((cAcc9.num_snowcover : ℚ) =
        ((createState "CA").num_snowcover : ℚ) +
          ([rHalf].map RecFields.snow).sum) := by
  decide

/-- C9 as amended: each fold truncates the flag counters toward zero, so
whenever every snow flag and every lightning flag of the folded records is
a nonnegative integer, the final counters equal the accumulator starting
values plus the sums of the raw flag values. -/
theorem c9_integer_flags_sum (a : ClimateInfo) (rs : List RecFields)
    (b : ClimateInfo) (h : foldRecords a rs = some b)
    (hs : ∀ r ∈ rs, ∃ n : ℕ, r.snow = (n : ℚ))
    (hl : ∀ r ∈ rs, ∃ n : ℕ, r.lightning = (n : ℚ)) :
    (b.num_snowcover : ℚ) =
      (a.num_snowcover : ℚ) + (rs.map RecFields.snow).sum ∧
    (b.num_lightning : ℚ) =
      (a.num_lightning : ℚ) + (rs.map RecFields.lightning).sum := by
  induction rs generalizing a with
  | nil =>
      unfold foldRecords at h
      simp only [Option.some_inj] at h
      subst h
      simp
  | cons r rs ih =>
      unfold foldRecords at h
      cases hf : foldFields a r with
      | none => rw [hf] at h; exact absurd h (fun hc => Option.noConfusion hc)
      | some a1 =>
          rw [hf] at h
          obtain ⟨n, hn⟩ := hs r (List.mem_cons_self r rs)
          obtain ⟨m, hm⟩ := hl r (List.mem_cons_self r rs)
          have hstep := foldFields_some hf
          have hsn : a1.num_snowcover = a.num_snowcover + n := by
            rw [hstep]
            dsimp only
            rw [hn,
              show ((a.num_snowcover : ℚ) + (n : ℚ)) =
                ((a.num_snowcover + n : ℕ) : ℚ) by push_cast; ring,
              Int.floor_natCast]
            exact Int.toNat_natCast _
          have hln : a1.num_lightning = a.num_lightning + m := by
            rw [hstep]
            dsimp only
            rw [hm,
              show ((a.num_lightning : ℚ) + (m : ℚ)) =
                ((a.num_lightning + m : ℕ) : ℚ) by push_cast; ring,
              Int.floor_natCast]
            exact Int.toNat_natCast _
          obtain ⟨ihs, ihl⟩ := ih a1 h
            (fun x hx => hs x (List.mem_cons_of_mem r hx))
            (fun x hx => hl x (List.mem_cons_of_mem r hx))
          constructor
          · rw [List.map_cons, List.sum_cons, ihs, hsn, hn]
            push_cast
            ring
          · rw [List.map_cons, List.sum_cons, ihl, hln, hm]
            push_cast
            ring

/-- Witness for C9 as amended, at a single record with integer flags. -/
theorem c9_integer_flags_sum_witness :
    (wAcc9.num_snowcover : ℚ) =
      ((createState "TN").num_snowcover : ℚ) +
        ([wRec9].map RecFields.snow).sum ∧
    (wAcc9.num_lightning : ℚ) =
      ((createState "TN").num_lightning : ℚ) +
        ([wRec9].map RecFields.lightning).sum :=
  c9_integer_flags_sum (createState "TN") [wRec9] wAcc9 (by decide)
    (fun r hr => by
      rw [List.mem_singleton] at hr
      subst hr
      exact ⟨1, by norm_num [wRec9]⟩)
    (fun r hr => by
      rw [List.mem_singleton] at hr
      subst hr
      exact ⟨0, by norm_num [wRec9]⟩)

/-- C10: when a line for a state code not yet in the table is processed
successfully and its converted temperature lies strictly between the
sentinels -1000 and 1000, the freshly appended accumulator ends with both
extrema equal to the converted temperature of the creating record, both
extremum timestamps equal to its truncated second timestamp, and a record
count of one. -/
theorem c10_first_fold_sets_extrema (s : EngineState) (line : List Token)
    (s1 : EngineState) (tk0 tk1 tk8 : Token)
    (hhead : line.head? = some tk0)
    (h1 : line.get? 1 = some tk1) (h8 : line.get? 8 = some tk8)
    (hnew : ∀ a ∈ s.table, a.code ≠ tk0.str)
    (hlo : -1000 < kelvinToF tk8.q) (hhi : kelvinToF tk8.q < 1000)
    (h : processLine s line = some s1) :
    s1.table.getLast?.map extremaView =
      some (kelvinToF tk8.q, kelvinToF tk8.q,
        Int.tdiv tk1.z 1000, Int.tdiv tk1.z 1000, 1) := by
  obtain ⟨tk0x, f, hheadx, hext, hcase⟩ := processLine_cases h
  rw [hhead] at hheadx
  have htk0 : tk0x = tk0 := (Option.some_inj.mp hheadx).symm
  rw [htk0] at hcase
  obtain ⟨u1, u3, u4, u5, u6, u8, e1, e3, e4, e5, e6, e8, ef⟩ :=
    extractFields_some hext
  have hu1 : u1 = tk1 := by
    rw [e1] at h1
    exact Option.some_inj.mp h1
  have hu8 : u8 = tk8 := by
    rw [e8] at h8
    exact Option.some_inj.mp h8
  have htempK : f.tempK = tk8.q := by rw [ef, hu8]
  have hts : f.ts = tk1.z := by rw [ef, hu1]
  rcases hcase with ⟨a1, hnotin, hfold, hs1⟩ |
    ⟨idx, hidx, j, a1, hlast, hcode, hfold, hs1⟩
  · have hmax0 : (bumpCount (createState tk0.str)).max_temperature = -1000 := rfl
    have hmin0 : (bumpCount (createState tk0.str)).min_temperature = 1000 := rfl
    have hfr := foldFields_fresh
      (by rw [hmax0, htempK]; exact hlo)
      (by rw [hmin0, htempK]; exact hhi) hfold
    have hkeep := foldFields_keeps hfold
    have hrec : a1.num_records = 1 := by
      rw [hkeep.2]
      rfl
    rw [hs1]
    dsimp only
    rw [List.getLast?_concat, Option.map_some']
    unfold extremaView
    rw [hfr.1, hfr.2.1, hfr.2.2.1, hfr.2.2.2, hrec, htempK, hts]
  · exact absurd hcode (hnew _ (List.get_mem s.table idx hidx))

/-- Witness for C10 at a concrete creation run. -/
theorem c10_first_fold_sets_extrema_witness :
    (EngineState.mk [wAcc10] (some 0)).table.getLast?.map extremaView =
      some (kelvinToF ((numTok 280).q), kelvinToF ((numTok 280).q),
        Int.tdiv (Token.mk "ts" 0 1000).z 1000,
        Int.tdiv (Token.mk "ts" 0 1000).z 1000, 1) :=
  c10_first_fold_sets_extrema ⟨[], none⟩ lineCA1 ⟨[wAcc10], some 0⟩
    ⟨"CA", 0, 0⟩ ⟨"ts", 0, 1000⟩ (numTok 280) (by decide) (by decide)
    (by decide) (fun a ha => absurd ha (List.not_mem_nil a))
    (by decide) (by decide) (by decide)


end Climate
